import Mathlib

/-!
Shallow embedding of the `kr-stock-screener` repository, covering the parts
of the code base that the verified statements below are about:

* `src/core/processors/point_in_time.py` — `PointInTimeManager`
  (`estimate_announcement_date`, `get_available_financials`,
  `get_ttm_available`) and the module-level `validate_no_lookahead`;
* `src/core/collectors/delisted_stocks.py` — `DelistedStockCollector`
  (`collect_from_krx` sample ledger, `was_listed_at`);
* `src/core/processors/adjusted_price.py` — `AdjustedPriceCalculator`
  (`calculate_adjustment_factors`);
* `src/analyzers/backtester.py` — `SimpleBacktester.run` and
  `_calculate_mdd`.

Calendar dates are embedded as year/month/day triples ordered through the
numeric key `y * 10000 + m * 100 + d`, which agrees with lexicographic
(and hence chronological) order for well-formed dates.  Numeric columns
(prices, ratios, returns) are embedded as exact rationals `ℚ`, i.e. the
real-number semantics of the Python arithmetic, ignoring floating-point
rounding.  Pandas DataFrames become lists of records together with Boolean
flags recording which optional columns are present; raising an exception
becomes `Except.error`.
-/

namespace KrScreener

/-- A calendar date, as `datetime.date` in the Python source. -/
structure Date where
  year : Nat
  month : Nat
  day : Nat
  deriving DecidableEq, Repr

/-- Numeric sort key of a date; chronological for well-formed dates. -/
def Date.key (d : Date) : Nat := d.year * 10000 + d.month * 100 + d.day

/-- Boolean `≤` on dates (Python `<=` between `datetime.date`s). -/
def dle (a b : Date) : Bool := a.key ≤ b.key

/-- Boolean `<` on dates (Python `<` between `datetime.date`s). -/
def dlt (a b : Date) : Bool := a.key < b.key

/-- Gregorian leap-year test. -/
def isLeap (y : Nat) : Bool := y % 4 == 0 && (y % 100 != 0 || y % 400 == 0)

/-- Number of days in a month of the Gregorian calendar. -/
def daysInMonth (y m : Nat) : Nat :=
  if m = 2 then (if isLeap y then 29 else 28)
  else if m = 4 ∨ m = 6 ∨ m = 9 ∨ m = 11 then 30
  else 31

/-- The day after a given date. -/
def nextDay (d : Date) : Date :=
  if d.day < daysInMonth d.year d.month then ⟨d.year, d.month, d.day + 1⟩
  else if d.month < 12 then ⟨d.year, d.month + 1, 1⟩
  else ⟨d.year + 1, 1, 1⟩

/-- The date `n` days after `d` (real calendar arithmetic; used to state
the "fixed delay" reading of the announcement-date table). -/
def addDays (d : Date) : Nat → Date
  | 0 => d
  | n + 1 => nextDay (addDays d n)

/-! ### `PointInTimeManager` (src/core/processors/point_in_time.py) -/

/-- One row of the financial-statement table handled by
`PointInTimeManager`.  `announced` is the value of the `announced_at`
column; whether that column is present at all is a table-level flag on
`PIT` below, mirroring pandas column presence. -/
structure FinRecord where
  code : String
  fiscalYear : Nat
  fiscalQuarter : String
  announced : Date
  revenue : ℚ
  operatingIncome : ℚ
  netIncome : ℚ
  deriving DecidableEq, Repr

/-- State of a `PointInTimeManager`: the financial table plus flags for
the optional columns the Python code probes with `in df.columns`. -/
structure PIT where
  financials : List FinRecord
  hasAnnouncedCol : Bool
  hasQuarterCol : Bool
  hasRevenueCol : Bool
  hasOperatingIncomeCol : Bool
  hasNetIncomeCol : Bool
  deriving DecidableEq, Repr

/-- `PointInTimeManager.estimate_announcement_date`: estimated public
announcement date of the report for fiscal year `fy` and quarter tag `fq`. -/
def estimateAnnouncementDate (fy : Nat) (fq : String) : Date :=
  if fq = "FY" then ⟨fy + 1, 3, 31⟩
  else if fq = "1Q" then ⟨fy, 5, 15⟩
  else if fq = "2Q" then ⟨fy, 8, 15⟩
  else if fq = "3Q" then ⟨fy, 11, 15⟩
  else ⟨fy + 1, 3, 31⟩

/-- Effective `announced_at` value of a row: the stored column when the
table has one, otherwise the estimate the code fills in row by row. -/
def effAnnounced (m : PIT) (r : FinRecord) : Date :=
  if m.hasAnnouncedCol then r.announced
  else estimateAnnouncementDate r.fiscalYear r.fiscalQuarter

/-- `PointInTimeManager.get_available_financials`: the rows of the given
entity whose (possibly estimated) announcement date is on or before
`asOf`. -/
def getAvailableFinancials (m : PIT) (code : String) (asOf : Date) :
    List FinRecord :=
  ((m.financials.filter (fun r => r.code == code)).filter
    (fun r => dle (effAnnounced m r) asOf))

/-- `validate_no_lookahead` (module level): usable iff the trade date is
on or after the announcement date, which defaults to April 1 of the year
after the data period's year. -/
def validateNoLookahead (tradeDate dataDate : Date)
    (announcedDate : Option Date) : Bool :=
  let ad := announcedDate.getD ⟨dataDate.year + 1, 4, 1⟩
  dle ad tradeDate

/-! ### `DelistedStockCollector` (src/core/collectors/delisted_stocks.py) -/

/-- One listing-interval record of the delisted-stock ledger. -/
structure ListingRecord where
  code : String
  listed : Date
  delisted : Option Date
  deriving DecidableEq, Repr

/-- The sample rows hard-coded in `DelistedStockCollector.collect_from_krx`. -/
def krxSamples : List ListingRecord :=
  [⟨"001500", ⟨1999, 9, 1⟩, some ⟨2012, 4, 30⟩⟩,
   ⟨"036570", ⟨2000, 11, 1⟩, none⟩,
   ⟨"019680", ⟨1987, 6, 20⟩, some ⟨2023, 12, 28⟩⟩]

/-- `collect_from_krx`: the sample rows restricted to those actually
delisted (`delisted_at` not null). -/
def collectFromKrx : List ListingRecord :=
  krxSamples.filter (fun r => r.delisted.isSome)

/-- `DelistedStockCollector.was_listed_at`, with the cached ledger being
`collect_from_krx` (the collector populates the cache on first use).  The
Python code takes `stock.iloc[0]`, the first row matching the code. -/
def wasListedAt (code : String) (checkDate : Date) : Bool :=
  match collectFromKrx.find? (fun r => r.code == code) with
  | none => true
  | some r =>
    match r.delisted with
    | none => dle r.listed checkDate
    | some dd => dle r.listed checkDate && dlt checkDate dd

/-- `PointInTimeManager.get_ttm_available` helpers: the quarterly rows
(`fiscal_quarter` among 1Q–4Q) available as of a date. -/
def quartersAvailable (m : PIT) (code : String) (asOf : Date) :
    List FinRecord :=
  (getAvailableFinancials m code asOf).filter
    (fun r => ["1Q", "2Q", "3Q", "4Q"].contains r.fiscalQuarter)

/-- Quarterly rows sorted by announcement date, most recent first
(`sort_values('announced_at', ascending=False)`). -/
def ttmSorted (m : PIT) (code : String) (asOf : Date) : List FinRecord :=
  List.insertionSort
    (fun a b => (effAnnounced m b).key ≤ (effAnnounced m a).key)
    (quartersAvailable m code asOf)

/-- The four most recently announced quarterly rows (`.head(4)`). -/
def ttmTop4 (m : PIT) (code : String) (asOf : Date) : List FinRecord :=
  (ttmSorted m code asOf).take 4

/-- Result dictionary of `get_ttm_available`: `none` is the empty dict
`{}`; inside, each field is `None` when its source column is missing. -/
structure TtmResult where
  revenueTtm : Option ℚ
  operatingIncomeTtm : Option ℚ
  netIncomeTtm : Option ℚ
  deriving DecidableEq, Repr

/-- `PointInTimeManager.get_ttm_available`: sum the four most recently
announced quarterly rows available as of `asOf`; empty when the quarter
column is missing or fewer than four quarterly rows are available. -/
def getTtmAvailable (m : PIT) (code : String) (asOf : Date) :
    Option TtmResult :=
  if m.hasQuarterCol then
    let top := ttmTop4 m code asOf
    if 4 ≤ top.length then
      some
        { revenueTtm :=
            if m.hasRevenueCol then some (top.map (·.revenue)).sum else none,
          operatingIncomeTtm :=
            if m.hasOperatingIncomeCol then
              some (top.map (·.operatingIncome)).sum
            else none,
          netIncomeTtm :=
            if m.hasNetIncomeCol then
              some (top.map (·.netIncome)).sum
            else none }
    else none
  else none

/-! ### `AdjustedPriceCalculator` (src/core/processors/adjusted_price.py) -/

/-- One price bar of the input table (its date and raw close). -/
structure Bar where
  date : Date
  close : ℚ
  deriving DecidableEq, Repr

/-- A corporate action (`CorporateAction` dataclass). -/
structure CorporateAction where
  actionDate : Date
  actionType : String
  ratio : ℚ
  dividendAmount : ℚ
  deriving DecidableEq, Repr

/-- Intermediate rows of `calculate_adjustment_factors`: each bar paired
with its current `adj_factor` column value. -/
abbrev FactorRow := Bar × ℚ

/-- One iteration of the action loop in `calculate_adjustment_factors`:
bars dated strictly before the action date get their factor scaled; a
dividend's reference price is the raw close of the first row dated
exactly on the action date, and the dividend is skipped when the amount
is not positive, no such row exists, or the reference price is not
positive.  Unknown action types (e.g. `merger`) change nothing. -/
def applyAction (st : List FactorRow) (a : CorporateAction) :
    List FactorRow :=
  if a.actionType = "split" then
    st.map (fun p =>
      if dlt p.1.date a.actionDate then (p.1, p.2 * a.ratio) else p)
  else if a.actionType = "dividend" then
    if 0 < a.dividendAmount then
      match st.find? (fun p => p.1.date == a.actionDate) with
      | some p0 =>
        if 0 < p0.1.close then
          st.map (fun p =>
            if dlt p.1.date a.actionDate then
              (p.1, p.2 * ((p0.1.close - a.dividendAmount) / p0.1.close))
            else p)
        else st
      | none => st
    else st
  else if a.actionType = "rights" then
    st.map (fun p =>
      if dlt p.1.date a.actionDate then (p.1, p.2 * a.ratio) else p)
  else st

/-- `AdjustedPriceCalculator.calculate_adjustment_factors`: every bar
starts with `adj_factor = 1.0`, then the actions are replayed in reverse
order of the calculator's (date-sorted) action list. -/
def calcAdjustmentFactors (bars : List Bar) (actions : List CorporateAction) :
    List FactorRow :=
  actions.reverse.foldl applyAction (bars.map (fun b => (b, (1 : ℚ))))

/-! ### `SimpleBacktester` (src/analyzers/backtester.py) -/

/-- One row of a yearly dataset: the stock code and its `return` column
value (meaningful only when the dataset has that column). -/
structure Row where
  code : String
  ret : ℚ
  deriving DecidableEq, Repr

/-- A yearly dataset: rows plus pandas column-presence flags for the
stock-code column and the `return` column. -/
structure Dataset where
  rows : List Row
  hasCodeCol : Bool
  hasReturnCol : Bool
  deriving DecidableEq, Repr

/-- The accumulating `results` dictionary of `SimpleBacktester.run`. -/
structure BtResults where
  years : List Int
  returns : List ℚ
  holdings : List (List String)
  cumulative : List ℚ
  deriving DecidableEq, Repr

/-- Initial `results`: empty lists and a cumulative curve seeded `[1.0]`. -/
def btInit : BtResults := ⟨[], [], [], [1]⟩

/-- The per-holding return collection of the loop body: for each held
code, the `return` value of the first matching row of the next year's
dataset, kept only when a row matches and the dataset has a `return`
column. -/
def collectReturns (nextData : Dataset) (holdings : List String) : List ℚ :=
  holdings.filterMap (fun code =>
    match nextData.rows.find? (fun r => r.code == code) with
    | some r => if nextData.hasReturnCol then some r.ret else none
    | none => none)

/-- The holdings list of the loop body: the codes of the first
`max_positions` selected rows, or `[]` when the selection has no
stock-code column. -/
def holdingsOf (maxPositions : Nat) (selected : Dataset) : List String :=
  if selected.hasCodeCol then
    (selected.rows.take maxPositions).map (·.code)
  else []

/-- One iteration of the year loop of `SimpleBacktester.run`.  A missing
yearly dataset, a raising screen (`Except.error`), a screen returning
`None`, an empty selection, or a missing next-year dataset all leave the
results unchanged (`continue`); otherwise the period is recorded, with
mean return 0 when no holding had return data. -/
def step (maxPositions : Nat) (screen : Dataset → Except Unit (Option Dataset))
    (hist : Int → Option Dataset) (st : BtResults) (year : Int) : BtResults :=
  match hist year with
  | none => st
  | some yearData =>
    match screen yearData with
    | .error _ => st
    | .ok none => st
    | .ok (some selected) =>
      if selected.rows = [] then st
      else
        let holdings := holdingsOf maxPositions selected
        match hist (year + 1) with
        | none => st
        | some nextData =>
          let returns := collectReturns nextData holdings
          let avgReturn : ℚ :=
            if returns = [] then 0 else returns.sum / returns.length
          { years := st.years ++ [year],
            returns := st.returns ++ [avgReturn],
            holdings := st.holdings ++ [holdings],
            cumulative :=
              st.cumulative ++ [st.cumulative.getLastD 1 * (1 + avgReturn)] }

/-- The years `range(start_year, end_year)` of the backtest loop. -/
def yearRange (startYear endYear : Int) : List Int :=
  (List.range (endYear - startYear).toNat).map (fun k => startYear + k)

/-- `SimpleBacktester.run` up to the final summary metrics: fold the year
loop over the initial results. -/
def btRun (maxPositions : Nat) (screen : Dataset → Except Unit (Option Dataset))
    (hist : Int → Option Dataset) (startYear endYear : Int) : BtResults :=
  (yearRange startYear endYear).foldl (step maxPositions screen hist) btInit

/-- `results['total_return']`: `(cumulative[-1] - 1) * 100`. -/
def totalReturnOf (res : BtResults) : ℚ := (res.cumulative.getLastD 1 - 1) * 100

/-- `SimpleBacktester._calculate_mdd`: running-peak maximum drawdown of
the cumulative curve, in percent. -/
def calculateMdd (cumulative : List ℚ) : ℚ :=
  match cumulative with
  | [] => 0
  | c0 :: _ =>
    (cumulative.foldl
      (fun s v =>
        let peak := if s.1 < v then v else s.1
        let dd := (peak - v) / peak
        (peak, if s.2 < dd then dd else s.2))
      (c0, (0 : ℚ))).2 * 100

/-- Specification-side cumulative curve (`cumulative[i] =
cumulative[i-1] * (1 + r_i)`, seeded at 1): helper carrying the running
value. -/
def cumFrom (c : ℚ) : List ℚ → List ℚ
  | [] => []
  | r :: rs => c * (1 + r) :: cumFrom (c * (1 + r)) rs

/-- Specification-side cumulative curve, seeded at 1.0.  Stated from the
spec's recurrence, to be compared with the curve `btRun` builds. -/
def cumCurveSpec (rs : List ℚ) : List ℚ := 1 :: cumFrom 1 rs

/-! ## Theorems -/

/-- C3: for all dates `d1 ≤ d2` and any entity, the financial records
available as of `d1` are a subset of those available as of `d2`;
enlarging the as-of date never removes a record. -/
theorem available_financials_monotone (m : PIT) (code : String)
    (d1 d2 : Date) (h : dle d1 d2 = true) :
    ∀ r ∈ getAvailableFinancials m code d1,
      r ∈ getAvailableFinancials m code d2 := by
  intro r hr
  simp only [getAvailableFinancials, List.mem_filter, dle,
    decide_eq_true_eq] at hr ⊢
  exact ⟨hr.1, le_trans hr.2 (by simpa [dle] using h)⟩

/-- Witness for C3 at a concrete manager and pair of dates. -/
theorem available_financials_monotone_witness :
    (⟨"A", 2020, "FY", ⟨2021, 3, 31⟩, 1, 1, 1⟩ : FinRecord) ∈
      getAvailableFinancials
        ⟨[⟨"A", 2020, "FY", ⟨2021, 3, 31⟩, 1, 1, 1⟩], true, true, true,
          true, true⟩ "A" ⟨2021, 5, 1⟩ :=
  available_financials_monotone _ "A" ⟨2021, 4, 1⟩ ⟨2021, 5, 1⟩
    (by decide) _ (by decide)

/-- C6: `validate_no_lookahead` returns `false` exactly when the trade
date is strictly before the announcement date, which defaults to April 1
of the year after the data period's year; in particular a 2024-01-15
trade on FY2023 data with no explicit announcement date is rejected. -/
theorem validate_no_lookahead_spec :
    (∀ (tradeDate dataDate : Date) (announcedDate : Option Date),
      validateNoLookahead tradeDate dataDate announcedDate = false ↔
        dlt tradeDate
          (announcedDate.getD ⟨dataDate.year + 1, 4, 1⟩) = true) ∧
    validateNoLookahead ⟨2024, 1, 15⟩ ⟨2023, 12, 31⟩ none = false := by
  refine ⟨fun tradeDate dataDate announcedDate => ?_, by decide⟩
  simp only [validateNoLookahead, dle, dlt, decide_eq_true_eq,
    decide_eq_false_iff_not]
  exact not_le

set_option maxRecDepth 10000 in
/-- C4 counterexample: the claim "quarterly reports are dated exactly 45
days after quarter-end and FY reports exactly 90 days after December 31"
fails at fiscal year 2023: the code returns fixed calendar dates, and
August 15 is 46 days after June 30, while 90 days after 2023-12-31 is
2024-03-30 (2024 is a leap year), not the returned 2024-03-31. -/
theorem estimate_announcement_date_counterexample :
    estimateAnnouncementDate 2023 "2Q" ≠ addDays ⟨2023, 6, 30⟩ 45 ∧
    estimateAnnouncementDate 2023 "3Q" ≠ addDays ⟨2023, 9, 30⟩ 45 ∧
    estimateAnnouncementDate 2023 "FY" ≠ addDays ⟨2023, 12, 31⟩ 90 ∧
    estimateAnnouncementDate 2023 "1Q" = addDays ⟨2023, 3, 31⟩ 45 := by
  refine ⟨by decide, by decide, by decide, by decide⟩

/-- C4 amended: `estimate_announcement_date` returns fixed calendar
dates: March 31 of `y + 1` for FY, and May 15, August 15 and November 15
of `y` for 1Q, 2Q and 3Q (45, 46 and 46 days after the respective
quarter-ends); any other tag also maps to March 31 of `y + 1`. -/
theorem estimate_announcement_date_fixed (y : Nat) :
    estimateAnnouncementDate y "FY" = ⟨y + 1, 3, 31⟩ ∧
    estimateAnnouncementDate y "1Q" = ⟨y, 5, 15⟩ ∧
    estimateAnnouncementDate y "2Q" = ⟨y, 8, 15⟩ ∧
    estimateAnnouncementDate y "3Q" = ⟨y, 11, 15⟩ :=
  ⟨rfl, rfl, rfl, rfl⟩

/-- C2: `was_listed_at` is `true` when the collected ledger holds no
record for the entity, and otherwise `true` iff some ledger record of
the entity has `listed ≤ date` and either no delisting date or
`date < delisted`; in particular the entity listed 1999-09-01 and
delisted 2012-04-30 was listed at 2011-01-01 and not at 2013-01-01. -/
theorem was_listed_at_spec :
    (∀ (code : String) (d : Date),
      wasListedAt code d = true ↔
        ((∀ r ∈ collectFromKrx, r.code ≠ code) ∨
          ∃ r ∈ collectFromKrx, r.code = code ∧ dle r.listed d = true ∧
            (r.delisted = none ∨
              ∃ dd, r.delisted = some dd ∧ dlt d dd = true))) ∧
    wasListedAt "001500" ⟨2011, 1, 1⟩ = true ∧
    wasListedAt "001500" ⟨2013, 1, 1⟩ = false := by
  refine ⟨fun code d => ?_, by decide, by decide⟩
  have hledger : collectFromKrx =
      [⟨"001500", ⟨1999, 9, 1⟩, some ⟨2012, 4, 30⟩⟩,
       ⟨"019680", ⟨1987, 6, 20⟩, some ⟨2023, 12, 28⟩⟩] := by decide
  by_cases h1 : code = "001500"
  · subst h1
    simp [wasListedAt, hledger, List.find?]
  · by_cases h2 : code = "019680"
    · subst h2
      simp [wasListedAt, hledger, List.find?]
    · have e1 : ("001500" == code) = false :=
        beq_eq_false_iff_ne.mpr (Ne.symm h1)
      have e2 : ("019680" == code) = false :=
        beq_eq_false_iff_ne.mpr (Ne.symm h2)
      have hL : wasListedAt code d = true := by
        simp [wasListedAt, hledger, List.find?, e1, e2]
      have hR : ∀ r ∈ collectFromKrx, r.code ≠ code := by
        intro r hr
        rw [hledger] at hr
        simp only [List.mem_cons, List.not_mem_nil, or_false] at hr
        rcases hr with rfl | rfl
        · exact Ne.symm h1
        · exact Ne.symm h2
      exact ⟨fun _ => Or.inl hR, fun _ => hL⟩

/-- Scaling only the rows dated strictly before `d` by a factor of 1
changes nothing. -/
lemma map_scale_one (st : List FactorRow) (d : Date) :
    st.map (fun p =>
      if dlt p.1.date d then (p.1, p.2 * (1 : ℚ)) else p) = st := by
  induction st with
  | nil => rfl
  | cons p st ih =>
    simp only [List.map_cons, ih, List.cons.injEq, and_true]
    by_cases h : dlt p.1.date d = true <;> simp [h]

/-- Every branch of the action loop body either leaves the rows alone or
scales the factors of all rows dated strictly before the action date by
one common multiplier. -/
lemma applyAction_shape (st : List FactorRow) (a : CorporateAction) :
    ∃ m : ℚ, applyAction st a =
      st.map (fun p =>
        if dlt p.1.date a.actionDate then (p.1, p.2 * m) else p) := by
  unfold applyAction
  by_cases hs : a.actionType = "split"
  · exact ⟨a.ratio, by simp [hs]⟩
  · by_cases hd : a.actionType = "dividend"
    · simp only [hs, if_false, hd, if_true]
      by_cases hamt : 0 < a.dividendAmount
      · cases hfind : st.find? (fun p => p.1.date == a.actionDate) with
        | none => exact ⟨1, by simp [hamt, hfind, map_scale_one]⟩
        | some p0 =>
          by_cases href : 0 < p0.1.close
          · exact ⟨(p0.1.close - a.dividendAmount) / p0.1.close,
              by simp [hamt, hfind, href]⟩
          · exact ⟨1, by simp [hamt, hfind, href, map_scale_one]⟩
      · exact ⟨1, by simp [hamt, map_scale_one]⟩
    · by_cases hr : a.actionType = "rights"
      · exact ⟨a.ratio, by simp [hs, hd, hr]⟩
      · exact ⟨1, by simp [hs, hd, hr, map_scale_one]⟩

/-- A row whose bar is dated on or after every action date keeps its
factor through the whole action loop. -/
lemma foldl_applyAction_fixed (l : List CorporateAction)
    (st : List FactorRow) (i : Nat) (b : Bar) (f : ℚ)
    (hst : st[i]? = some (b, f))
    (hl : ∀ a ∈ l, dle a.actionDate b.date = true) :
    (l.foldl applyAction st)[i]? = some (b, f) := by
  induction l generalizing st with
  | nil => simpa using hst
  | cons a l ih =>
    simp only [List.foldl_cons]
    apply ih
    · obtain ⟨m, hm⟩ := applyAction_shape st a
      have hle := hl a (List.mem_cons_self a l)
      have hnlt : dlt b.date a.actionDate = false := by
        simp only [dle, decide_eq_true_eq] at hle
        simp only [dlt, decide_eq_false_iff_not, not_lt]
        exact hle
      rw [hm, List.getElem?_map, hst]
      simp [hnlt]
    · exact fun a' ha' => hl a' (List.mem_cons_of_mem a ha')

/-- C1 amended: if every corporate action in the ledger is dated on or
before a bar's date — in particular, for the bar carrying the latest
date of a nonempty table whenever no action postdates it — that bar's
adjustment factor after `calculate_adjustment_factors` is exactly 1.0. -/
theorem latest_bar_factor_one (bars : List Bar)
    (actions : List CorporateAction) (i : Nat) (b : Bar)
    (hb : bars[i]? = some b)
    (hlatest : ∀ a ∈ actions, dle a.actionDate b.date = true) :
    (calcAdjustmentFactors bars actions)[i]? = some (b, 1) := by
  unfold calcAdjustmentFactors
  apply foldl_applyAction_fixed
  · rw [List.getElem?_map, hb]
    rfl
  · exact fun a ha => hlatest a (List.mem_reverse.mp ha)

/-- Witness for C1 amended: a one-bar table with a split dated on the
bar itself leaves the bar's factor at 1. -/
theorem latest_bar_factor_one_witness :
    (calcAdjustmentFactors [⟨⟨2020, 1, 5⟩, 100⟩]
      [⟨⟨2020, 1, 5⟩, "split", 0, 0⟩])[0]? =
      some (⟨⟨2020, 1, 5⟩, 100⟩, 1) :=
  latest_bar_factor_one _ _ 0 _ (by decide) (by decide)

/-- C1 counterexample: with a split dated after the latest bar the mask
`date < action_date` covers the whole table, so the (unique, hence
latest) bar ends with adjustment factor 1/2, not 1.0. -/
theorem latest_bar_factor_one_counterexample :
    (calcAdjustmentFactors [⟨⟨2020, 1, 1⟩, 100⟩]
      [⟨⟨2020, 1, 2⟩, "split", 1/2, 0⟩]).map Prod.snd ≠ [1] := by
  have h : (calcAdjustmentFactors [⟨⟨2020, 1, 1⟩, 100⟩]
      [⟨⟨2020, 1, 2⟩, "split", 1/2, 0⟩]).map Prod.snd = [1/2] := by
    norm_num [calcAdjustmentFactors, applyAction, dlt, Date.key]
  rw [h]
  norm_num

/-- The action loop never touches the bars themselves (dates and raw
closes), only the factor column. -/
lemma applyAction_fst (st : List FactorRow) (a : CorporateAction) :
    (applyAction st a).map Prod.fst = st.map Prod.fst := by
  obtain ⟨m, hm⟩ := applyAction_shape st a
  rw [hm, List.map_map]
  apply List.map_congr_left
  intro p _
  by_cases h : dlt p.1.date a.actionDate = true <;> simp [h]

/-- Bars are preserved through any sequence of actions. -/
lemma foldl_applyAction_fst (l : List CorporateAction)
    (st : List FactorRow) :
    (l.foldl applyAction st).map Prod.fst = st.map Prod.fst := by
  induction l generalizing st with
  | nil => rfl
  | cons a l ih => rw [List.foldl_cons, ih, applyAction_fst]

/-- C5: a dividend action with positive amount, a bar dated exactly on
the action date, and positive reference close multiplies the factor of
every bar dated strictly before the action date by
`(reference − dividend) / reference`; without such a bar, or with a zero
reference close, the action changes no factor.  The reference close is
the raw close: `calculate_adjustment_factors` never alters the bars
themselves. -/
theorem dividend_adjustment_spec :
    (∀ (st : List FactorRow) (a : CorporateAction) (p0 : FactorRow),
      a.actionType = "dividend" → 0 < a.dividendAmount →
      st.find? (fun p => p.1.date == a.actionDate) = some p0 →
      0 < p0.1.close →
      applyAction st a = st.map (fun p =>
        if dlt p.1.date a.actionDate then
          (p.1, p.2 * ((p0.1.close - a.dividendAmount) / p0.1.close))
        else p)) ∧
    (∀ (st : List FactorRow) (a : CorporateAction),
      a.actionType = "dividend" →
      st.find? (fun p => p.1.date == a.actionDate) = none →
      applyAction st a = st) ∧
    (∀ (st : List FactorRow) (a : CorporateAction) (p0 : FactorRow),
      a.actionType = "dividend" →
      st.find? (fun p => p.1.date == a.actionDate) = some p0 →
      p0.1.close = 0 →
      applyAction st a = st) ∧
    (∀ (bars : List Bar) (actions : List CorporateAction),
      (calcAdjustmentFactors bars actions).map Prod.fst = bars) := by
  refine ⟨?_, ?_, ?_, ?_⟩
  · intro st a p0 ha hamt hfind href
    simp [applyAction, ha, hamt, hfind, href]
  · intro st a ha hfind
    by_cases hamt : 0 < a.dividendAmount <;>
      simp [applyAction, ha, hamt, hfind]
  · intro st a p0 ha hfind href
    by_cases hamt : 0 < a.dividendAmount <;>
      simp [applyAction, ha, hamt, hfind, href]
  · intro bars actions
    unfold calcAdjustmentFactors
    rw [foldl_applyAction_fst, List.map_map]
    have hcomp : (Prod.fst ∘ fun b : Bar => (b, (1 : ℚ))) = id := rfl
    rw [hcomp, List.map_id]

/-- Witness for C5: a concrete two-bar table with a 10-unit dividend on
the second bar (raw close 200) rescales the first bar by 19/20; a
dividend dated off the table, or with a zero reference close, changes
nothing; and the bars survive a concrete calculation unchanged. -/
theorem dividend_adjustment_spec_witness :
    (applyAction
        [(⟨⟨2020, 1, 1⟩, 100⟩, 1), (⟨⟨2020, 1, 2⟩, 200⟩, 1)]
        ⟨⟨2020, 1, 2⟩, "dividend", 1, 10⟩ =
      [(⟨⟨2020, 1, 1⟩, 100⟩, 1), (⟨⟨2020, 1, 2⟩, 200⟩, 1)].map (fun p =>
        if dlt p.1.date ⟨2020, 1, 2⟩ then
          (p.1, p.2 * (((200 : ℚ) - 10) / 200))
        else p)) ∧
    (applyAction [(⟨⟨2020, 1, 1⟩, 100⟩, 1)]
        ⟨⟨2020, 1, 3⟩, "dividend", 1, 10⟩ =
      [(⟨⟨2020, 1, 1⟩, 100⟩, 1)]) ∧
    (applyAction [(⟨⟨2020, 1, 2⟩, 0⟩, 1)]
        ⟨⟨2020, 1, 2⟩, "dividend", 1, 10⟩ =
      [(⟨⟨2020, 1, 2⟩, 0⟩, 1)]) ∧
    (calcAdjustmentFactors [⟨⟨2020, 1, 1⟩, 100⟩] []).map Prod.fst =
      [⟨⟨2020, 1, 1⟩, 100⟩] :=
  ⟨dividend_adjustment_spec.1 _ _ (⟨⟨2020, 1, 2⟩, 200⟩, 1) rfl
      (by norm_num) (by decide) (by norm_num),
    dividend_adjustment_spec.2.1 _ _ rfl (by decide),
    dividend_adjustment_spec.2.2.1 _ _ (⟨⟨2020, 1, 2⟩, 0⟩, 1) rfl
      (by decide) rfl,
    dividend_adjustment_spec.2.2.2 _ _⟩

/-- C8: each of the three bad-period conditions — yearly dataset absent,
screening raising, screening returning `None` or an empty selection —
leaves the results untouched, and a period whose iteration leaves the
results untouched lets the fold continue over the remaining periods
unchanged: no single bad period aborts the run. -/
theorem run_skips_bad_periods :
    (∀ maxPos screen hist st (year : Int), hist year = none →
      step maxPos screen hist st year = st) ∧
    (∀ maxPos screen hist st (year : Int) yearData,
      hist year = some yearData → screen yearData = .error () →
      step maxPos screen hist st year = st) ∧
    (∀ maxPos screen hist st (year : Int) yearData,
      hist year = some yearData → screen yearData = .ok none →
      step maxPos screen hist st year = st) ∧
    (∀ maxPos screen hist st (year : Int) yearData selected,
      hist year = some yearData → screen yearData = .ok (some selected) →
      selected.rows = [] → step maxPos screen hist st year = st) ∧
    (∀ maxPos screen hist st (year : Int) (rest : List Int),
      step maxPos screen hist st year = st →
      (year :: rest).foldl (step maxPos screen hist) st =
        rest.foldl (step maxPos screen hist) st) := by
  refine ⟨?_, ?_, ?_, ?_, ?_⟩
  · intro maxPos screen hist st year h1
    simp [step, h1]
  · intro maxPos screen hist st year yearData h1 h2
    simp [step, h1, h2]
  · intro maxPos screen hist st year yearData h1 h2
    simp [step, h1, h2]
  · intro maxPos screen hist st year yearData selected h1 h2 h3
    simp [step, h1, h2, h3]
  · intro maxPos screen hist st year rest h
    rw [List.foldl_cons, h]

/-- Witness for C8 at concrete runs: an absent year, a raising screen, a
`None` screen, an empty selection, and the fold continuing past a
skipped year. -/
theorem run_skips_bad_periods_witness :
    (step 20 (fun d => .ok (some d)) (fun _ => none) btInit 2020 =
      btInit) ∧
    (step 20 (fun _ => .error ())
      (fun _ => some ⟨[⟨"A", 0⟩], true, true⟩) btInit 2020 = btInit) ∧
    (step 20 (fun _ => .ok none)
      (fun _ => some ⟨[⟨"A", 0⟩], true, true⟩) btInit 2020 = btInit) ∧
    (step 20 (fun _ => .ok (some ⟨[], true, true⟩))
      (fun _ => some ⟨[⟨"A", 0⟩], true, true⟩) btInit 2020 = btInit) ∧
    ((2020 :: [2021]).foldl
        (step 20 (fun d => .ok (some d)) (fun _ => none)) btInit =
      [2021].foldl (step 20 (fun d => .ok (some d)) (fun _ => none))
        btInit) :=
  ⟨run_skips_bad_periods.1 20 _ _ btInit 2020 rfl,
    run_skips_bad_periods.2.1 20 _ _ btInit 2020 _ rfl rfl,
    run_skips_bad_periods.2.2.1 20 _ _ btInit 2020 _ rfl rfl,
    run_skips_bad_periods.2.2.2.1 20 _ _ btInit 2020 _ _ rfl rfl rfl,
    run_skips_bad_periods.2.2.2.2 20 _ _ btInit 2020 [2021]
      (run_skips_bad_periods.1 20 _ _ btInit 2020 rfl)⟩

/-- C10: a period with a non-empty selection and non-empty holdings
whose next-year dataset exists but matches no held code is not skipped:
it is recorded with a return of exactly 0, and the cumulative curve
gains an entry equal to the previous one (`prev * (1 + 0)`). -/
theorem no_return_data_records_zero
    (maxPos : Nat) (screen : Dataset → Except Unit (Option Dataset))
    (hist : Int → Option Dataset) (st : BtResults) (year : Int)
    (yearData selected nextData : Dataset)
    (h1 : hist year = some yearData)
    (h2 : screen yearData = .ok (some selected))
    (h3 : selected.rows ≠ [])
    (_h4 : holdingsOf maxPos selected ≠ [])
    (h5 : hist (year + 1) = some nextData)
    (h6 : collectReturns nextData (holdingsOf maxPos selected) = []) :
    step maxPos screen hist st year =
      { years := st.years ++ [year],
        returns := st.returns ++ [0],
        holdings := st.holdings ++ [holdingsOf maxPos selected],
        cumulative := st.cumulative ++ [st.cumulative.getLastD 1] } := by
  simp [step, h1, h2, h3, h5, h6]

/-- Witness for C10: holding `"A"` while the next year's dataset only
covers `"B"` records the period with return 0 and a flat cumulative
entry. -/
theorem no_return_data_records_zero_witness :
    step 20 (fun d => .ok (some d))
      (fun n => if n = 2020 then some ⟨[⟨"A", 0⟩], true, true⟩
        else if n = 2021 then some ⟨[⟨"B", 0⟩], true, true⟩ else none)
      btInit 2020 =
      { years := [2020], returns := [0], holdings := [["A"]],
        cumulative := [1, 1] } :=
  no_return_data_records_zero 20 _ _ btInit 2020
    ⟨[⟨"A", 0⟩], true, true⟩ ⟨[⟨"A", 0⟩], true, true⟩
    ⟨[⟨"B", 0⟩], true, true⟩ rfl rfl (by decide) (by decide) rfl
    (by decide)

/-- Appending one more period return extends the spec curve by
`last * (1 + r)`. -/
lemma cumFrom_append (c r : ℚ) (rs : List ℚ) :
    cumFrom c (rs ++ [r]) =
      cumFrom c rs ++ [(cumFrom c rs).getLastD c * (1 + r)] := by
  induction rs generalizing c with
  | nil => simp [cumFrom]
  | cons x xs ih =>
    simp only [List.cons_append, cumFrom, List.getLastD_cons]
    exact congrArg (List.cons (c * (1 + x))) (ih (c * (1 + x)))

/-- One loop iteration preserves "the cumulative curve is the spec
recurrence applied to the recorded returns". -/
lemma step_preserves_curve (maxPos : Nat)
    (screen : Dataset → Except Unit (Option Dataset))
    (hist : Int → Option Dataset) (st : BtResults) (year : Int)
    (h : st.cumulative = cumCurveSpec st.returns) :
    (step maxPos screen hist st year).cumulative =
      cumCurveSpec (step maxPos screen hist st year).returns := by
  cases h1 : hist year with
  | none => simpa [step, h1] using h
  | some yearData =>
    cases h2 : screen yearData with
    | error e => simpa [step, h1, h2] using h
    | ok osel =>
      cases osel with
      | none => simpa [step, h1, h2] using h
      | some selected =>
        by_cases h3 : selected.rows = []
        · simpa [step, h1, h2, h3] using h
        · cases h4 : hist (year + 1) with
          | none => simpa [step, h1, h2, h3, h4] using h
          | some nextData =>
            simp only [step, h1, h2, h3, h4, if_false]
            rw [h]
            simp only [cumCurveSpec, cumFrom_append, List.cons_append,
              List.getLastD_cons]

/-- The whole year fold preserves the recurrence invariant. -/
lemma foldl_step_curve (maxPos : Nat)
    (screen : Dataset → Except Unit (Option Dataset))
    (hist : Int → Option Dataset) (years : List Int) (st : BtResults)
    (h : st.cumulative = cumCurveSpec st.returns) :
    (years.foldl (step maxPos screen hist) st).cumulative =
      cumCurveSpec (years.foldl (step maxPos screen hist) st).returns := by
  induction years generalizing st with
  | nil => exact h
  | cons y ys ih =>
    exact ih _ (step_preserves_curve maxPos screen hist st y h)

/-- Demo data for the spec's two-period backtest scenario: one stock
`"A"` with a +50% realized return in 2021 and a −20% one in 2022. -/
def demoHist : Int → Option Dataset := fun n =>
  if n = 2020 then some ⟨[⟨"A", 0⟩], true, true⟩
  else if n = 2021 then some ⟨[⟨"A", 1/2⟩], true, true⟩
  else if n = 2022 then some ⟨[⟨"A", -1/5⟩], true, true⟩
  else none

/-- Demo run over 2020–2022 with the identity screening function. -/
def demoRun : BtResults := btRun 20 (fun d => .ok (some d)) demoHist 2020 2022

/-- C7: the cumulative curve is seeded at 1.0 and satisfies
`cumulative[i] = cumulative[i-1] * (1 + return_i)`; each recorded period
return is the arithmetic mean of the collected holding returns; and in
the two-period +50%/−20% scenario the curve is `[1.0, 1.5, 1.2]`, the
total return 20% and the maximum drawdown 20%. -/
theorem cumulative_curve_spec :
    (∀ (maxPos : Nat) (screen : Dataset → Except Unit (Option Dataset))
      (hist : Int → Option Dataset) (s e : Int),
      (btRun maxPos screen hist s e).cumulative =
        cumCurveSpec (btRun maxPos screen hist s e).returns) ∧
    (∀ maxPos screen hist st (year : Int) yearData selected nextData,
      hist year = some yearData → screen yearData = .ok (some selected) →
      selected.rows ≠ [] → hist (year + 1) = some nextData →
      collectReturns nextData (holdingsOf maxPos selected) ≠ [] →
      (step maxPos screen hist st year).returns = st.returns ++
        [(collectReturns nextData (holdingsOf maxPos selected)).sum /
          ((collectReturns nextData (holdingsOf maxPos selected)).length :
            ℚ)]) ∧
    (demoRun.returns = [1/2, -1/5] ∧
      demoRun.cumulative = [1, 3/2, 6/5] ∧
      totalReturnOf demoRun = 20 ∧
      calculateMdd demoRun.cumulative = 20) := by
  refine ⟨?_, ?_, ?_⟩
  · intro maxPos screen hist s e
    exact foldl_step_curve maxPos screen hist _ btInit rfl
  · intro maxPos screen hist st year yearData selected nextData
      h1 h2 h3 h4 h5
    simp [step, h1, h2, h3, h4, h5]
  · have hret : demoRun.returns = [1/2, -1/5] := by
      simp +decide [demoRun, btRun, yearRange, step, btInit, demoHist,
        collectReturns, holdingsOf, List.range, List.range.loop,
        List.foldl]
    have hcum : demoRun.cumulative = [1, 3/2, 6/5] := by
      simp +decide [demoRun, btRun, yearRange, step, btInit, demoHist,
        collectReturns, holdingsOf, List.range, List.range.loop,
        List.foldl]
      norm_num
    refine ⟨hret, hcum, ?_, ?_⟩
    · rw [totalReturnOf, hcum]
      norm_num
    · rw [hcum]
      norm_num [calculateMdd, List.foldl]

/-- Witness for C7: the mean-return clause applied at a concrete period
whose single holding has a recorded return. -/
theorem cumulative_curve_spec_witness :
    (step 20 (fun d => .ok (some d))
        (fun n => if n = 2020 then some ⟨[⟨"A", 0⟩], true, true⟩
          else if n = 2021 then some ⟨[⟨"A", 0⟩], true, true⟩ else none)
        btInit 2020).returns = [] ++
      [(collectReturns ⟨[⟨"A", 0⟩], true, true⟩
          (holdingsOf 20 ⟨[⟨"A", 0⟩], true, true⟩)).sum /
        ((collectReturns ⟨[⟨"A", 0⟩], true, true⟩
          (holdingsOf 20 ⟨[⟨"A", 0⟩], true, true⟩)).length : ℚ)] :=
  cumulative_curve_spec.2.1 20 _ _ btInit 2020
    ⟨[⟨"A", 0⟩], true, true⟩ ⟨[⟨"A", 0⟩], true, true⟩
    ⟨[⟨"A", 0⟩], true, true⟩ rfl rfl (by decide) rfl (by decide)

/-- Sorting for the TTM lookup permutes the quarterly rows, so it keeps
their number. -/
lemma ttmSorted_length (m : PIT) (code : String) (asOf : Date) :
    (ttmSorted m code asOf).length = (quartersAvailable m code asOf).length :=
  (List.perm_insertionSort _ _).length_eq

/-- C9: the TTM lookup is empty whenever fewer than four quarterly
records are available as of the date; with the quarter column present
and at least four such records it sums the four most recently announced
ones — every quarterly record it draws from is announced on or before
the as-of date, and every record among the chosen four is announced no
earlier than any record left out. -/
theorem ttm_spec :
    (∀ (m : PIT) (code : String) (asOf : Date),
      (quartersAvailable m code asOf).length < 4 →
      getTtmAvailable m code asOf = none) ∧
    (∀ (m : PIT) (code : String) (asOf : Date),
      m.hasQuarterCol = true →
      4 ≤ (quartersAvailable m code asOf).length →
      getTtmAvailable m code asOf = some
        { revenueTtm :=
            if m.hasRevenueCol then
              some ((ttmTop4 m code asOf).map (·.revenue)).sum
            else none,
          operatingIncomeTtm :=
            if m.hasOperatingIncomeCol then
              some ((ttmTop4 m code asOf).map (·.operatingIncome)).sum
            else none,
          netIncomeTtm :=
            if m.hasNetIncomeCol then
              some ((ttmTop4 m code asOf).map (·.netIncome)).sum
            else none }) ∧
    (∀ (m : PIT) (code : String) (asOf : Date) (r : FinRecord),
      r ∈ quartersAvailable m code asOf →
      dle (effAnnounced m r) asOf = true) ∧
    (∀ (m : PIT) (code : String) (asOf : Date) (x y : FinRecord),
      x ∈ ttmTop4 m code asOf → y ∈ (ttmSorted m code asOf).drop 4 →
      (effAnnounced m y).key ≤ (effAnnounced m x).key) := by
  refine ⟨?_, ?_, ?_, ?_⟩
  · intro m code asOf h
    by_cases hq : m.hasQuarterCol
    · have hlen : (ttmTop4 m code asOf).length < 4 := by
        rw [ttmTop4, List.length_take, ttmSorted_length]
        omega
      simp only [getTtmAvailable, hq, if_true]
      rw [if_neg (by omega)]
    · simp [getTtmAvailable, hq]
  · intro m code asOf hq h
    have hlen : 4 ≤ (ttmTop4 m code asOf).length := by
      rw [ttmTop4, List.length_take, ttmSorted_length]
      omega
    simp only [getTtmAvailable, hq, if_true]
    rw [if_pos hlen]
  · intro m code asOf r hr
    have := (List.mem_filter.mp hr).1
    exact (List.mem_filter.mp this).2
  · intro m code asOf x y hx hy
    haveI hto :
        IsTotal FinRecord
          (fun a b => (effAnnounced m b).key ≤ (effAnnounced m a).key) :=
      ⟨fun a b => le_total _ _⟩
    haveI htr :
        IsTrans FinRecord
          (fun a b => (effAnnounced m b).key ≤ (effAnnounced m a).key) :=
      ⟨fun _ _ _ hab hbc => le_trans hbc hab⟩
    have hs :
        List.Sorted
          (fun a b => (effAnnounced m b).key ≤ (effAnnounced m a).key)
          (ttmSorted m code asOf) :=
      List.sorted_insertionSort _ _
    exact hs.rel_of_mem_take_of_mem_drop hx hy

/-- The manager of the TTM witness: five quarterly rows of one entity,
announced between May 2023 and May 2024, all columns present. -/
def ttmWitnessM : PIT :=
  ⟨[⟨"A", 2023, "1Q", ⟨2023, 5, 15⟩, 1, 1, 1⟩,
    ⟨"A", 2023, "2Q", ⟨2023, 8, 15⟩, 2, 2, 2⟩,
    ⟨"A", 2023, "3Q", ⟨2023, 11, 15⟩, 3, 3, 3⟩,
    ⟨"A", 2023, "4Q", ⟨2024, 3, 31⟩, 4, 4, 4⟩,
    ⟨"A", 2024, "1Q", ⟨2024, 5, 15⟩, 5, 5, 5⟩],
   true, true, true, true, true⟩

/-- Witness for C9: with only one quarterly row the lookup is empty;
with five rows it returns the sums over the top four; a quarterly row is
available as of 2024-12-31; and a chosen row is announced no earlier
than the dropped one. -/
theorem ttm_spec_witness :
    (getTtmAvailable ⟨[⟨"A", 2023, "1Q", ⟨2023, 5, 15⟩, 1, 1, 1⟩],
        true, true, true, true, true⟩ "A" ⟨2024, 12, 31⟩ = none) ∧
    (getTtmAvailable ttmWitnessM "A" ⟨2024, 12, 31⟩ = some
      { revenueTtm :=
          if ttmWitnessM.hasRevenueCol then
            some ((ttmTop4 ttmWitnessM "A" ⟨2024, 12, 31⟩).map
              (·.revenue)).sum
          else none,
        operatingIncomeTtm :=
          if ttmWitnessM.hasOperatingIncomeCol then
            some ((ttmTop4 ttmWitnessM "A" ⟨2024, 12, 31⟩).map
              (·.operatingIncome)).sum
          else none,
        netIncomeTtm :=
          if ttmWitnessM.hasNetIncomeCol then
            some ((ttmTop4 ttmWitnessM "A" ⟨2024, 12, 31⟩).map
              (·.netIncome)).sum
          else none }) ∧
    (dle (effAnnounced ttmWitnessM
      ⟨"A", 2023, "1Q", ⟨2023, 5, 15⟩, 1, 1, 1⟩) ⟨2024, 12, 31⟩ = true) ∧
    ((effAnnounced ttmWitnessM
        ⟨"A", 2023, "1Q", ⟨2023, 5, 15⟩, 1, 1, 1⟩).key ≤
      (effAnnounced ttmWitnessM
        ⟨"A", 2024, "1Q", ⟨2024, 5, 15⟩, 5, 5, 5⟩).key) :=
  ⟨ttm_spec.1 _ "A" ⟨2024, 12, 31⟩ (by decide),
    ttm_spec.2.1 ttmWitnessM "A" ⟨2024, 12, 31⟩ rfl (by decide),
    ttm_spec.2.2.1 ttmWitnessM "A" ⟨2024, 12, 31⟩ _ (by decide),
    ttm_spec.2.2.2 ttmWitnessM "A" ⟨2024, 12, 31⟩ _ _ (by decide)
      (by decide)⟩

end KrScreener
